import Mathlib

/-!
Verification of the Blacksmith sticky-disk delete action (`src/src/main.ts`).

The development shallowly embeds the program: environment access becomes an
explicit `Env` record, the asynchronous operation passed to the retry wrapper
becomes a function from the attempt index to the attempt's outcome, and the
retry loop is written with explicit fuel equal to the number of remaining
loop iterations (`maxRetries - attempt`), which is exactly the number of
iterations the JavaScript `for` loop has left.
-/

namespace StickyDisk

/-- Embeds JavaScript `String.prototype.includes` on char lists: does the
pattern occur as a contiguous substring?  `includesAux pat s` scans every
suffix of `s` for `pat` as a prefix. -/
def includesAux (pat : List Char) : List Char → Bool
  | [] => pat.isEmpty
  | c :: cs => pat.isPrefixOf (c :: cs) || includesAux pat cs

/-- JavaScript `s.includes(pat)` for strings. -/
def jsIncludes (s pat : String) : Bool :=
  includesAux pat.toList s.toList

/-- The process environment entries read by `src/src/main.ts`.  A field is
`none` when the variable is unset; `some s` when it is set to `s` (possibly
empty).  The two `INPUT_` fields are the GitHub-Actions inputs
`INPUT_DELETE-KEY` and `INPUT_DELETE-DOCKER-CACHE` read by `getInput`. -/
structure Env where
  BLACKSMITH_BACKEND_URL : Option String
  BLACKSMITH_ENV : Option String
  BLACKSMITH_STICKYDISK_TOKEN : Option String
  GITHUB_REPO_NAME : Option String
  GITHUB_REPOSITORY : Option String
  BLACKSMITH_INSTALLATION_MODEL_ID : Option String
  BLACKSMITH_REGION : Option String
  INPUT_DELETE_KEY : Option String
  INPUT_DELETE_DOCKER_CACHE : Option String
deriving Repr, DecidableEq

/-- JavaScript truthiness of a string-or-undefined environment entry:
falsy exactly when unset or the empty string. -/
def truthy : Option String → Bool
  | some s => !(s == "")
  | none => false

/-- JavaScript `process.env.X?.includes(pat)` coerced to boolean: `false`
when the variable is unset (`undefined?.includes` is `undefined`, falsy). -/
def envIncludes (v : Option String) (pat : String) : Bool :=
  match v with
  | some s => jsIncludes s pat
  | none => false

/-- Embeds `getBlacksmithAPIUrl` (src/src/main.ts lines 8-20): an explicit
override wins when truthy, else staging detection on `BLACKSMITH_ENV`,
else production. -/
def getBlacksmithAPIUrl (env : Env) : String :=
  if truthy env.BLACKSMITH_BACKEND_URL then env.BLACKSMITH_BACKEND_URL.getD ""
  else if envIncludes env.BLACKSMITH_ENV "staging" then "https://stagingapi.blacksmith.sh"
  else "https://api.blacksmith.sh"

/-- Embeds `getArchitecture` (src/src/main.ts lines 22-29). -/
def getArchitecture (env : Env) : String :=
  if envIncludes env.BLACKSMITH_ENV "arm" then "arm64" else "amd64"

/-- A JavaScript `Error` as inspected by the retry wrapper: its `message`
string and the optional structured `status` field. -/
structure Err where
  message : String
  status : Option Int
deriving Repr, DecidableEq

/-- The placeholder `lastError` initialised at src/src/main.ts line 36. -/
def noErrorSentinel : Err :=
  { message := "No error occurred", status := none }

/-- Embeds the retry predicate of `retryWithBackoff`
(src/src/main.ts lines 46-49). -/
def shouldRetry (e : Err) : Bool :=
  jsIncludes e.message "429" || e.status == some 429 ||
    (match e.status with
     | some s => decide (500 ≤ s)
     | none => false)

/-- Result of running `retryWithBackoff`: the value returned or error
thrown, the number of times the operation was invoked, and the list of
backoff waits performed, in chronological order. -/
structure RetryOutcome (T : Type) where
  result : Except Err T
  attemptsMade : Nat
  delays : List Nat
deriving Repr

/-- The loop of `retryWithBackoff` (src/src/main.ts lines 38-64).
`op i` is the outcome of the `i`-th invocation of the wrapped operation
(0-indexed).  The fuel argument equals `maxRetries - attempt`, the number
of loop iterations remaining; when it reaches zero the loop exits and
`lastError` is thrown (line 64). -/
def retryAux {T : Type} (op : Nat → Except Err T) (maxRetries initialBackoffMs : Nat) :
    Nat → Nat → Err → RetryOutcome T
  | 0, attempt, lastError =>
    { result := .error lastError, attemptsMade := attempt, delays := [] }
  | fuel + 1, attempt, _ =>
    match op attempt with
    | .ok v => { result := .ok v, attemptsMade := attempt + 1, delays := [] }
    | .error e =>
      if shouldRetry e = true ∧ attempt < maxRetries - 1 then
        let rest := retryAux op maxRetries initialBackoffMs fuel (attempt + 1) e
        { result := rest.result, attemptsMade := rest.attemptsMade,
          delays := initialBackoffMs * 2 ^ attempt :: rest.delays }
      else
        { result := .error e, attemptsMade := attempt + 1, delays := [] }

/-- Embeds `retryWithBackoff` (src/src/main.ts lines 31-65). -/
def retryWithBackoff {T : Type} (op : Nat → Except Err T)
    (maxRetries initialBackoffMs : Nat) : RetryOutcome T :=
  retryAux op maxRetries initialBackoffMs maxRetries 0 noErrorSentinel

/-- Default `maxRetries` (src/src/main.ts line 33). -/
def defaultMaxRetries : Nat := 5

/-- Default `initialBackoffMs` (src/src/main.ts line 34). -/
def defaultInitialBackoffMs : Nat := 200

/-- The success body of the delete endpoint (src/src/main.ts lines 3-6). -/
structure DeleteResponse where
  message : String
  entity_id : String
deriving Repr, DecidableEq

/-- An HTTP response as consumed by the fetch operation in
`deleteStickyDiskByKey`: the `ok` flag, numeric status, error body text
(read when not ok) and the parsed JSON body (read when ok; response bodies
are assumed well-formed, no claim concerns malformed JSON). -/
structure HttpResponse where
  ok : Bool
  status : Int
  text : String
  json : DeleteResponse
deriving Repr, DecidableEq

/-- The request built by `deleteStickyDiskByKey` (src/src/main.ts
lines 86-100): method, url, header pairs and the JSON body as an ordered
list of string fields. -/
structure HttpRequest where
  url : String
  method : String
  headers : List (String × String)
  body : List (String × String)
deriving Repr, DecidableEq

/-- Embeds the request construction of `deleteStickyDiskByKey`
(src/src/main.ts lines 86-100). -/
def buildDeleteRequest (env : Env)
    (stickyDiskKey stickyDiskToken repoName installationModelId region type : String) :
    HttpRequest :=
  { url := getBlacksmithAPIUrl env ++ "/stickydisks"
  , method := "DELETE"
  , headers :=
      [("Authorization", "Bearer " ++ stickyDiskToken),
       ("Content-Type", "application/json")]
  , body :=
      [("repo_name", repoName),
       ("stickydisk_key", stickyDiskKey),
       ("installation_model_id", installationModelId),
       ("region", region),
       ("arch", getArchitecture env),
       ("type", type)] }

/-- Embeds the body of the `operation` closure (src/src/main.ts
lines 85-112): a non-2xx response becomes a structured error whose message
embeds the status and body text and whose `status` field is set; an ok
response yields the parsed body. -/
def operationResult (resp : HttpResponse) : Except Err DeleteResponse :=
  if resp.ok then .ok resp.json
  else .error
    { message := "Failed to delete sticky disk: " ++ toString resp.status ++ " - " ++ resp.text
    , status := some resp.status }

/-- Embeds `deleteStickyDiskByKey` (src/src/main.ts lines 67-117):
builds the request and runs the fetch operation through `retryWithBackoff`
with the default retry parameters.  `responses i` is the HTTP response the
service would give to the `i`-th attempt. -/
def deleteStickyDiskByKey (env : Env) (responses : Nat → HttpResponse)
    (stickyDiskKey stickyDiskToken repoName installationModelId region type : String) :
    HttpRequest × RetryOutcome DeleteResponse :=
  (buildDeleteRequest env stickyDiskKey stickyDiskToken repoName installationModelId region type,
   retryWithBackoff (fun i => operationResult (responses i))
     defaultMaxRetries defaultInitialBackoffMs)

/-- JavaScript `String.prototype.trim`: drop leading and trailing
whitespace characters (modulo the exact whitespace alphabet, which is
wider in JavaScript than `Char.isWhitespace`; the difference is immaterial
to the claims). -/
def jsTrim (s : String) : String :=
  String.mk (((s.toList.dropWhile Char.isWhitespace).reverse.dropWhile
    Char.isWhitespace).reverse)

/-- Embeds `getInput` of the `gha-utils` dependency (bundled in
`src/dist/main.bundle.mjs`): the raw input value, or the empty string when
unset, with surrounding whitespace trimmed. -/
def getInput (v : Option String) : String :=
  jsTrim (v.getD "")

/-- Is the `delete-key` mode requested: the trimmed `delete-key` input is a
truthy (non-empty) string (src/src/main.ts line 121 and the tests at
lines 126, 132, 169). -/
def deleteKeySelected (env : Env) : Bool :=
  !(getInput env.INPUT_DELETE_KEY == "")

/-- Is the `delete-docker-cache` mode requested: the trimmed input equals
`"true"` exactly (src/src/main.ts lines 122-123). -/
def dockerCacheSelected (env : Env) : Bool :=
  getInput env.INPUT_DELETE_DOCKER_CACHE == "true"

/-- The repository name resolution `process.env.GITHUB_REPO_NAME ??
process.env.GITHUB_REPOSITORY` (src/src/main.ts lines 146-147): the
fallback is taken only when `GITHUB_REPO_NAME` is unset. -/
def resolvedRepoName (env : Env) : Option String :=
  env.GITHUB_REPO_NAME.or env.GITHUB_REPOSITORY

/-- The distinct fatal errors `main` can log before exiting with code 1.
Each constructor corresponds to one `throw new Error(...)` site in `main`
(src/src/main.ts lines 126-166), plus the propagated failure of the
delete operation itself. -/
inductive MainError where
  | bothModes
  | neitherMode
  | missingToken
  | missingRepoName
  | missingInstallationModelId
  | missingRegion
  | operationFailed (e : Err)
deriving Repr, DecidableEq

/-- The configuration validation performed by `main` before any network
activity (src/src/main.ts lines 121-166), in source order: mode
exclusivity, then each required environment variable checked for JS
truthiness. -/
def configCheck (env : Env) : Option MainError :=
  if deleteKeySelected env = true ∧ dockerCacheSelected env = true then
    some .bothModes
  else if deleteKeySelected env = false ∧ dockerCacheSelected env = false then
    some .neitherMode
  else if truthy env.BLACKSMITH_STICKYDISK_TOKEN = false then
    some .missingToken
  else if truthy (resolvedRepoName env) = false then
    some .missingRepoName
  else if truthy env.BLACKSMITH_INSTALLATION_MODEL_ID = false then
    some .missingInstallationModelId
  else if truthy env.BLACKSMITH_REGION = false then
    some .missingRegion
  else
    none

/-- The observable outcome of one run of `main`: the process exit code
(0 for the unset exit code), the fatal error logged if any, and the network
calls made — one entry per actual HTTP request sent, i.e. one per attempt
made by the retry loop. -/
structure MainResult where
  exitCode : Nat
  error : Option MainError
  requests : List HttpRequest
deriving Repr, DecidableEq

/-- The tail of `main` once a delete call is issued: a thrown error is
caught at the top level (src/src/main.ts lines 194-197) and sets exit
code 1. -/
def runDelete (d : HttpRequest × RetryOutcome DeleteResponse) : MainResult :=
  match d.2.result with
  | .ok _ =>
    { exitCode := 0, error := none, requests := List.replicate d.2.attemptsMade d.1 }
  | .error e =>
    { exitCode := 1, error := some (.operationFailed e),
      requests := List.replicate d.2.attemptsMade d.1 }

/-- Embeds `main` (src/src/main.ts lines 119-198).  After validation,
exactly one of the two mutually exclusive modes runs: `delete-key` uses the
caller-supplied key with type `"stickydisk"`; `delete-docker-cache` uses
the repository name as the key with type `"dockerfile"`. -/
def main (env : Env) (responses : Nat → HttpResponse) : MainResult :=
  match configCheck env with
  | some e => { exitCode := 1, error := some e, requests := [] }
  | none =>
    let deleteKey := getInput env.INPUT_DELETE_KEY
    let token := env.BLACKSMITH_STICKYDISK_TOKEN.getD ""
    let repoName := (resolvedRepoName env).getD ""
    let installationModelId := env.BLACKSMITH_INSTALLATION_MODEL_ID.getD ""
    let region := env.BLACKSMITH_REGION.getD ""
    if !(deleteKey == "") then
      runDelete (deleteStickyDiskByKey env responses deleteKey token repoName
        installationModelId region "stickydisk")
    else
      runDelete (deleteStickyDiskByKey env responses repoName token repoName
        installationModelId region "dockerfile")


/-! ### General lemmas about the retry loop -/

/-- Step equation: a successful attempt returns immediately. -/
theorem retryAux_step_ok {T : Type} (op : Nat → Except Err T) (mr ib f a : Nat)
    (lerr : Err) (v : T) (hop : op a = .ok v) :
    retryAux op mr ib (f + 1) a lerr = ⟨.ok v, a + 1, []⟩ := by
  simp [retryAux, hop]

/-- Step equation: a retryable failure below the attempt ceiling waits and
re-enters the loop. -/
theorem retryAux_step_retry {T : Type} (op : Nat → Except Err T) (mr ib f a : Nat)
    (lerr e : Err) (hop : op a = .error e) (hc : shouldRetry e = true ∧ a < mr - 1) :
    retryAux op mr ib (f + 1) a lerr =
      { result := (retryAux op mr ib f (a + 1) e).result
      , attemptsMade := (retryAux op mr ib f (a + 1) e).attemptsMade
      , delays := ib * 2 ^ a :: (retryAux op mr ib f (a + 1) e).delays } := by
  simp only [retryAux, hop]
  rw [if_pos hc]

/-- Step equation: a failure that is non-retryable, or on the final allowed
attempt, is rethrown at once. -/
theorem retryAux_step_stop {T : Type} (op : Nat → Except Err T) (mr ib f a : Nat)
    (lerr e : Err) (hop : op a = .error e) (hc : ¬(shouldRetry e = true ∧ a < mr - 1)) :
    retryAux op mr ib (f + 1) a lerr = ⟨.error e, a + 1, []⟩ := by
  simp only [retryAux, hop]
  rw [if_neg hc]

/-- The loop never reports fewer attempts than the index it starts at. -/
theorem attemptsMade_ge {T : Type} (op : Nat → Except Err T) (mr ib : Nat) :
    ∀ fuel a lerr, a ≤ (retryAux op mr ib fuel a lerr).attemptsMade := by
  intro fuel
  induction fuel with
  | zero => intro a lerr; simp [retryAux]
  | succ f ih =>
    intro a lerr
    cases hop : op a with
    | ok v =>
      rw [retryAux_step_ok op mr ib f a lerr v hop]
      exact Nat.le_succ a
    | error e =>
      by_cases hc : shouldRetry e = true ∧ a < mr - 1
      · rw [retryAux_step_retry op mr ib f a lerr e hop hc]
        exact le_trans (Nat.le_succ a) (ih (a + 1) e)
      · rw [retryAux_step_stop op mr ib f a lerr e hop hc]
        exact Nat.le_succ a

/-- With at least one loop iteration of fuel left, at least one attempt
beyond the starting index is made. -/
theorem attemptsMade_ge_succ {T : Type} (op : Nat → Except Err T) (mr ib : Nat) :
    ∀ fuel a lerr, 1 ≤ fuel → a + 1 ≤ (retryAux op mr ib fuel a lerr).attemptsMade := by
  intro fuel a lerr hf
  obtain ⟨f, rfl⟩ : ∃ f, fuel = f + 1 := ⟨fuel - 1, by omega⟩
  cases hop : op a with
  | ok v => rw [retryAux_step_ok op mr ib f a lerr v hop]
  | error e =>
    by_cases hc : shouldRetry e = true ∧ a < mr - 1
    · rw [retryAux_step_retry op mr ib f a lerr e hop hc]
      exact attemptsMade_ge op mr ib f (a + 1) e
    · rw [retryAux_step_stop op mr ib f a lerr e hop hc]

/-- Prepending the wait performed at attempt index `a` to the waits of the
later attempts. -/
theorem delays_cons (ib a m : Nat) :
    ib * 2 ^ a :: ((List.range m).map fun j => ib * 2 ^ (a + 1 + j))
      = (List.range (m + 1)).map fun j => ib * 2 ^ (a + j) := by
  rw [List.range_succ_eq_map, List.map_cons, List.map_map]
  have h1 : a + 0 = a := by omega
  have h2 : ((fun j => ib * 2 ^ (a + j)) ∘ Nat.succ) = fun j => ib * 2 ^ (a + 1 + j) := by
    funext j
    have h3 : a + Nat.succ j = a + 1 + j := by omega
    simp [Function.comp, h3]
  rw [h1, h2]

/-- The waits performed by the loop form an initial segment of the
geometric sequence `ib * 2 ^ (a + k)`, in chronological order. -/
theorem delays_shape {T : Type} (op : Nat → Except Err T) (mr ib : Nat) :
    ∀ fuel a lerr, ∃ m, (retryAux op mr ib fuel a lerr).delays
      = (List.range m).map fun k => ib * 2 ^ (a + k) := by
  intro fuel
  induction fuel with
  | zero => intro a lerr; exact ⟨0, by simp [retryAux]⟩
  | succ f ih =>
    intro a lerr
    cases hop : op a with
    | ok v => exact ⟨0, by rw [retryAux_step_ok op mr ib f a lerr v hop]; simp⟩
    | error e =>
      by_cases hc : shouldRetry e = true ∧ a < mr - 1
      · obtain ⟨m, hm⟩ := ih (a + 1) e
        refine ⟨m + 1, ?_⟩
        rw [retryAux_step_retry op mr ib f a lerr e hop hc]
        simp only []
        rw [hm, delays_cons]
      · exact ⟨0, by rw [retryAux_step_stop op mr ib f a lerr e hop hc]; simp⟩

/-- When every attempt up to the retry ceiling fails with a retryable
error, the loop runs all `mr` iterations and surfaces the last error. -/
theorem retryAux_all_retryable_fail {T : Type} (op : Nat → Except Err T)
    (mr ib : Nat) (errs : Nat → Err)
    (hop : ∀ i, i < mr → op i = .error (errs i))
    (hret : ∀ i, i < mr → shouldRetry (errs i) = true) :
    ∀ fuel a lerr, fuel = mr - a → a < mr →
      (retryAux op mr ib fuel a lerr).result = .error (errs (mr - 1)) ∧
      (retryAux op mr ib fuel a lerr).attemptsMade = mr := by
  intro fuel
  induction fuel with
  | zero => intro a lerr hf ha; omega
  | succ f ih =>
    intro a lerr hf ha
    have hopa := hop a ha
    by_cases hlt : a < mr - 1
    · rw [retryAux_step_retry op mr ib f a lerr (errs a) hopa ⟨hret a ha, hlt⟩]
      have := ih (a + 1) (errs a) (by omega) (by omega)
      simpa using this
    · have ha1 : a = mr - 1 := by omega
      rw [retryAux_step_stop op mr ib f a lerr (errs a) hopa (by tauto)]
      subst ha1
      refine ⟨rfl, ?_⟩
      show mr - 1 + 1 = mr
      omega

/-- When the attempts before index `k` all fail retryably and attempt `k`
fails with a non-retryable error, the loop stops right there: the error of
attempt `k` surfaces, `k + 1` attempts were made, and exactly the `k - a`
waits before the re-invocations happened. -/
theorem retryAux_first_nonretryable {T : Type} (op : Nat → Except Err T)
    (mr ib k : Nat) (e : Err)
    (hk : k < mr)
    (hbefore : ∀ i, i < k → ∃ ei, op i = .error ei ∧ shouldRetry ei = true)
    (hop : op k = .error e) (hnr : shouldRetry e = false) :
    ∀ fuel a lerr, fuel = mr - a → a ≤ k →
      retryAux op mr ib fuel a lerr
        = ⟨.error e, k + 1, (List.range (k - a)).map fun j => ib * 2 ^ (a + j)⟩ := by
  intro fuel
  induction fuel with
  | zero => intro a lerr hf ha; omega
  | succ f ih =>
    intro a lerr hf ha
    rcases Nat.lt_or_ge a k with hak | hak
    · obtain ⟨ea, hopa, hra⟩ := hbefore a hak
      rw [retryAux_step_retry op mr ib f a lerr ea hopa ⟨hra, by omega⟩,
        ih (a + 1) ea (by omega) (by omega)]
      have hka : k - a = (k - (a + 1)) + 1 := by omega
      rw [hka, ← delays_cons]
    · have hak1 : a = k := by omega
      subst hak1
      rw [retryAux_step_stop op mr ib f a lerr e hop (by simp [hnr])]
      simp [Nat.sub_self]

/-- When the attempts up to and including index `k` all fail retryably and
the retry ceiling allows it, the loop goes on to make at least `k + 2`
attempts. -/
theorem retryAux_retries_past {T : Type} (op : Nat → Except Err T)
    (mr ib k : Nat)
    (hk : k < mr - 1)
    (hupto : ∀ i, i ≤ k → ∃ ei, op i = .error ei ∧ shouldRetry ei = true) :
    ∀ fuel a lerr, fuel = mr - a → a ≤ k →
      k + 2 ≤ (retryAux op mr ib fuel a lerr).attemptsMade := by
  intro fuel
  induction fuel with
  | zero => intro a lerr hf ha; omega
  | succ f ih =>
    intro a lerr hf ha
    obtain ⟨ea, hopa, hra⟩ := hupto a ha
    rw [retryAux_step_retry op mr ib f a lerr ea hopa ⟨hra, by omega⟩]
    rcases Nat.lt_or_ge a k with hak | hak
    · have := ih (a + 1) ea (by omega) (by omega)
      simpa using this
    · have hak1 : a = k := by omega
      subst hak1
      exact attemptsMade_ge_succ op mr ib f (a + 1) ea (by omega)

/-- Any error surfaced after at least one attempt is the error thrown by
the last attempt made, never a synthesized one.  The hypothesis is the loop
invariant: the carried `lastError` is the error of the previous attempt. -/
theorem retryAux_error_src {T : Type} (op : Nat → Except Err T) (mr ib : Nat) :
    ∀ fuel a lerr, (1 ≤ a → op (a - 1) = .error lerr) →
      ∀ e, (retryAux op mr ib fuel a lerr).result = .error e →
        1 ≤ (retryAux op mr ib fuel a lerr).attemptsMade →
        op ((retryAux op mr ib fuel a lerr).attemptsMade - 1) = .error e := by
  intro fuel
  induction fuel with
  | zero =>
    intro a lerr hinv e hres hatt
    simp only [retryAux] at hres hatt ⊢
    obtain rfl : lerr = e := by simpa using hres
    exact hinv hatt
  | succ f ih =>
    intro a lerr hinv e hres hatt
    cases hop : op a with
    | ok v =>
      rw [retryAux_step_ok op mr ib f a lerr v hop] at hres
      simp at hres
    | error e1 =>
      by_cases hc : shouldRetry e1 = true ∧ a < mr - 1
      · rw [retryAux_step_retry op mr ib f a lerr e1 hop hc] at hres hatt ⊢
        simp only [] at hres hatt ⊢
        exact ih (a + 1) e1 (fun _ => by simpa using hop) e hres hatt
      · rw [retryAux_step_stop op mr ib f a lerr e1 hop hc] at hres hatt ⊢
        simp only [] at hres hatt ⊢
        obtain rfl : e1 = e := by simpa using hres
        simpa using hop


/-! ### The retry predicate as worded in the specification -/

/-- The retry condition as worded in the specification (for the refinement
comparison of claim C1): the error message contains the substring "429", or
the structured status field equals 429, or the structured status field is
present and at least 500. -/
def retrySpecPred (e : Err) : Prop :=
  jsIncludes e.message "429" = true  ∨ e.status = some 429  ∨
    ∃ s, e.status = some s ∧ 500 ≤ s

/-- The code retry predicate coincides with the specification wording. -/
theorem shouldRetry_iff_spec (e : Err) : shouldRetry e = true ↔ retrySpecPred e := by
  obtain ⟨msg, st⟩ := e
  cases st with
  | none => simp [shouldRetry, retrySpecPred]
  | some s => simp [shouldRetry, retrySpecPred, or_assoc]


/-! ### Claims about the Backoff Executor -/

/-- C1: `retryWithBackoff` retries exactly when the thrown error's message
contains the substring "429", or its structured status equals 429, or its
structured status is present and at least 500; a failure not matching this
predicate is propagated on its first occurrence, with no further attempt
and no delay after it (the recorded waits are exactly the ones before the
earlier re-invocations). -/
theorem retry_exactly_on_rate_limit_or_server_error :
    (∀ e : Err, shouldRetry e = true ↔ retrySpecPred e) ∧
    (∀ (T : Type) (op : Nat → Except Err T) (mr ib k : Nat) (e : Err),
      k < mr →
      (∀ i, i < k → ∃ ei, op i = .error ei ∧ retrySpecPred ei) →
      op k = .error e → ¬ retrySpecPred e →
      retryWithBackoff op mr ib
        = ⟨.error e, k + 1, (List.range k).map fun j => ib * 2 ^ j⟩) ∧
    (∀ (T : Type) (op : Nat → Except Err T) (mr ib k : Nat),
      k < mr - 1 →
      (∀ i, i ≤ k → ∃ ei, op i = .error ei ∧ retrySpecPred ei) →
      k + 2 ≤ (retryWithBackoff op mr ib).attemptsMade) := by
  refine ⟨shouldRetry_iff_spec, ?_, ?_⟩
  · intro T op mr ib k e hk hbefore hop hnr
    have hb : ∀ i, i < k → ∃ ei, op i = .error ei ∧ shouldRetry ei = true := by
      intro i hi
      obtain ⟨ei, h1, h2⟩ := hbefore i hi
      exact ⟨ei, h1, (shouldRetry_iff_spec ei).mpr h2⟩
    have hnr2 : shouldRetry e = false := by
      rcases h : shouldRetry e with _ | _
      · rfl
      · exact absurd ((shouldRetry_iff_spec e).mp h) hnr
    have hmain := retryAux_first_nonretryable op mr ib k e hk hb hop hnr2
      mr 0 noErrorSentinel (by omega) (by omega)
    have hfun : (fun j => ib * 2 ^ (0 + j)) = fun j : Nat => ib * 2 ^ j := by
      funext j
      rw [Nat.zero_add]
    simp only [retryWithBackoff]
    rw [hmain, hfun, Nat.sub_zero]
  · intro T op mr ib k hk hupto
    have hu : ∀ i, i ≤ k → ∃ ei, op i = .error ei ∧ shouldRetry ei = true := by
      intro i hi
      obtain ⟨ei, h1, h2⟩ := hupto i hi
      exact ⟨ei, h1, (shouldRetry_iff_spec ei).mpr h2⟩
    have hmain := retryAux_retries_past op mr ib k hk hu mr 0 noErrorSentinel (by omega) (by omega)
    simpa [retryWithBackoff] using hmain

/-- C2: every wait performed before re-invoking the operation follows the
doubling schedule: the wait before attempt `n` (1-indexed, `n ≥ 2`) is the
`(n-2)`-th recorded delay and equals `ib * 2 ^ (n - 2)`, so with the default
initial backoff of 200 ms the wait before attempt 2 is 200 ms and doubles
before each later attempt. -/
theorem backoff_delay_doubles (T : Type) (op : Nat → Except Err T) (mr ib n : Nat)
    (h2 : 2 ≤ n) (hlen : n - 2 < (retryWithBackoff op mr ib).delays.length) :
    (retryWithBackoff op mr ib).delays.getD (n - 2) 0 = ib * 2 ^ (n - 2) ∧
    defaultInitialBackoffMs = 200 := by
  obtain ⟨m, hm⟩ := delays_shape op mr ib mr 0 noErrorSentinel
  refine ⟨?_, rfl⟩
  simp only [retryWithBackoff] at hlen ⊢
  rw [hm] at hlen ⊢
  rw [List.getD_eq_getElem _ _ hlen]
  simp only [List.getElem_map, List.getElem_range]
  rw [Nat.zero_add]

/-- C3: when every invocation of the operation fails with a retryable
error, the operation is invoked exactly `mr` times (the default `maxRetries`
is 5) and the error thrown by the last attempt is the one propagated. -/
theorem exhaustion_surfaces_last_attempt_error (T : Type) (op : Nat → Except Err T)
    (mr ib : Nat) (errs : Nat → Err)
    (h1 : 1 ≤ mr)
    (hop : ∀ i, i < mr → op i = .error (errs i))
    (hret : ∀ i, i < mr → retrySpecPred (errs i)) :
    (retryWithBackoff op mr ib).result = .error (errs (mr - 1)) ∧
    (retryWithBackoff op mr ib).attemptsMade = mr ∧
    defaultMaxRetries = 5 := by
  have hret2 : ∀ i, i < mr → shouldRetry (errs i) = true :=
    fun i hi => (shouldRetry_iff_spec (errs i)).mpr (hret i hi)
  have hmain := retryAux_all_retryable_fail op mr ib errs hop hret2
    mr 0 noErrorSentinel (by omega) (by omega)
  exact ⟨hmain.1, hmain.2, rfl⟩

/-- C4: `retryWithBackoff` is well-defined at the edges: with `maxRetries`
0 the operation is never invoked and the benign sentinel (whose message is
"No error occurred", not a retry-count message) is thrown; when the first
attempt succeeds the value is returned after exactly one attempt; and any
error surfaced after at least one attempt is the error thrown by the last
attempt itself, so no retry-count error is ever fabricated after an
attempt has been made. -/
theorem retry_zero_attempts_well_defined :
    (∀ (T : Type) (op : Nat → Except Err T) (ib : Nat),
      retryWithBackoff op 0 ib = ⟨.error noErrorSentinel, 0, []⟩) ∧
    noErrorSentinel.message = "No error occurred" ∧
    (∀ (T : Type) (op : Nat → Except Err T) (mr ib : Nat) (v : T),
      1 ≤ mr → op 0 = .ok v → retryWithBackoff op mr ib = ⟨.ok v, 1, []⟩) ∧
    (∀ (T : Type) (op : Nat → Except Err T) (mr ib : Nat) (e : Err),
      (retryWithBackoff op mr ib).result = .error e →
      1 ≤ (retryWithBackoff op mr ib).attemptsMade →
      op ((retryWithBackoff op mr ib).attemptsMade - 1) = .error e) := by
  refine ⟨fun T op ib => rfl, rfl, ?_, ?_⟩
  · intro T op mr ib v h1 hok
    obtain ⟨f, rfl⟩ : ∃ f, mr = f + 1 := ⟨mr - 1, by omega⟩
    simp only [retryWithBackoff]
    exact retryAux_step_ok op (f + 1) ib f 0 noErrorSentinel v hok
  · intro T op mr ib e hres hatt
    exact retryAux_error_src op mr ib mr 0 noErrorSentinel
      (fun h => absurd h (by omega)) e hres hatt

/-! ### Claims about configuration resolution -/

/-- C5 counterexample: with `BLACKSMITH_BACKEND_URL` set to the empty
string, the override variable is set yet is not used verbatim as the base
URL — JS truthiness skips it and production detection runs instead. -/
theorem backend_url_empty_override_not_used :
    (Env.mk (some "") none none none none none none none none).BLACKSMITH_BACKEND_URL
        = some "" ∧
    getBlacksmithAPIUrl (Env.mk (some "") none none none none none none none none)
        = "https://api.blacksmith.sh" ∧
    "https://api.blacksmith.sh" ≠ "" := by
  refine ⟨rfl, by decide, by decide⟩

/-- C5 (amended): if `BLACKSMITH_BACKEND_URL` is set to a non-empty string
it is used verbatim, taking precedence over staging detection; otherwise
(unset or set to the empty string) the staging host is used exactly when
`BLACKSMITH_ENV` contains "staging", else the production host; and the
resolved architecture is "arm64" exactly when `BLACKSMITH_ENV` contains
"arm", otherwise "amd64". -/
theorem api_url_and_architecture_resolution (env : Env) :
    (∀ u, env.BLACKSMITH_BACKEND_URL = some u → u ≠ "" →
      getBlacksmithAPIUrl env = u) ∧
    ((env.BLACKSMITH_BACKEND_URL = none ∨ env.BLACKSMITH_BACKEND_URL = some "") →
      getBlacksmithAPIUrl env =
        (if envIncludes env.BLACKSMITH_ENV "staging" = true then
          "https://stagingapi.blacksmith.sh" else "https://api.blacksmith.sh")) ∧
    (getArchitecture env = "arm64" ↔ envIncludes env.BLACKSMITH_ENV "arm" = true) ∧
    (getArchitecture env = "arm64" ∨ getArchitecture env = "amd64") := by
  refine ⟨?_, ?_, ?_, ?_⟩
  · intro u hu hne
    simp [getBlacksmithAPIUrl, truthy, hu, hne]
  · intro hcase
    rcases hcase with h | h <;> simp [getBlacksmithAPIUrl, truthy, h]
  · constructor
    · intro h
      cases he : envIncludes env.BLACKSMITH_ENV "arm" with
      | true => rfl
      | false =>
        rw [getArchitecture, if_neg (by simp [he])] at h
        exact absurd h (by decide)
    · intro h
      simp [getArchitecture, h]
  · cases he : envIncludes env.BLACKSMITH_ENV "arm" with
    | true => exact Or.inl (by simp [getArchitecture, he])
    | false => exact Or.inr (by simp [getArchitecture, he])

/-! ### Claims about the delete client and the orchestrator -/

/-- C6: for every configuration, the extended-variant delete client issues
an HTTP DELETE to `{apiBaseUrl}/stickydisks` with the bearer-token and
content-type headers and a JSON body containing exactly the fields
`repo_name`, `stickydisk_key`, `installation_model_id`, `region`, `arch`
and `type`, carrying the supplied values. -/
theorem delete_request_wire_format (env : Env) (responses : Nat → HttpResponse)
    (key token repoName installationModelId region ctype : String) :
    let req := (deleteStickyDiskByKey env responses key token repoName
      installationModelId region ctype).1
    req.method = "DELETE" ∧
    req.url = getBlacksmithAPIUrl env ++ "/stickydisks" ∧
    req.headers = [("Authorization", "Bearer " ++ token),
      ("Content-Type", "application/json")] ∧
    req.body.map Prod.fst
      = ["repo_name", "stickydisk_key", "installation_model_id", "region",
         "arch", "type"] ∧
    req.body = [("repo_name", repoName), ("stickydisk_key", key),
      ("installation_model_id", installationModelId), ("region", region),
      ("arch", getArchitecture env), ("type", ctype)] :=
  ⟨rfl, rfl, rfl, rfl, rfl⟩

/-- C7: whenever a required environment value (token, repository name,
installation model id, or region) is JS-falsy (unset or empty), or both or
neither of the two operation modes is selected, `main` sets exit code 1
and makes no network call. -/
theorem config_failure_exits_nonzero_no_network (env : Env)
    (responses : Nat → HttpResponse)
    (h : deleteKeySelected env = dockerCacheSelected env ∨
         truthy env.BLACKSMITH_STICKYDISK_TOKEN = false ∨
         truthy (resolvedRepoName env) = false ∨
         truthy env.BLACKSMITH_INSTALLATION_MODEL_ID = false ∨
         truthy env.BLACKSMITH_REGION = false) :
    (main env responses).exitCode = 1 ∧ (main env responses).requests = [] := by
  have hc : ∃ e, configCheck env = some e := by
    unfold configCheck
    split_ifs with h1 h2 h3 h4 h5 h6
    · exact ⟨_, rfl⟩
    · exact ⟨_, rfl⟩
    · exact ⟨_, rfl⟩
    · exact ⟨_, rfl⟩
    · exact ⟨_, rfl⟩
    · exact ⟨_, rfl⟩
    · exfalso
      rcases h with h | h | h | h | h
      · cases hk : deleteKeySelected env <;> cases hd : dockerCacheSelected env <;>
          simp_all
      · simp_all
      · simp_all
      · simp_all
      · simp_all
  obtain ⟨e, he⟩ := hc
  constructor <;> simp [main, he]

/-- The requests a finished delete call contributes: one per attempt made,
all with the same built request. -/
theorem runDelete_requests (d : HttpRequest × RetryOutcome DeleteResponse) :
    (runDelete d).requests = List.replicate d.2.attemptsMade d.1 := by
  unfold runDelete
  cases hr : d.2.result <;> simp

/-- On a valid configuration `main` runs exactly one delete call, whose key
and cache type are determined by the selected mode. -/
theorem main_valid_eq (env : Env) (responses : Nat → HttpResponse)
    (hvalid : configCheck env = none) :
    main env responses = runDelete (deleteStickyDiskByKey env responses
      (if deleteKeySelected env = true then getInput env.INPUT_DELETE_KEY
        else (resolvedRepoName env).getD "")
      (env.BLACKSMITH_STICKYDISK_TOKEN.getD "") ((resolvedRepoName env).getD "")
      (env.BLACKSMITH_INSTALLATION_MODEL_ID.getD "") (env.BLACKSMITH_REGION.getD "")
      (if deleteKeySelected env = true then "stickydisk" else "dockerfile")) := by
  simp only [main, hvalid, deleteKeySelected]
  by_cases hdk : getInput env.INPUT_DELETE_KEY = ""
  · simp [hdk]
  · simp [hdk]

/-- Every delete call makes at least one attempt (the default retry count
is five). -/
theorem delete_attempts_pos (env : Env) (responses : Nat → HttpResponse)
    (key token repoName installationModelId region ctype : String) :
    1 ≤ (deleteStickyDiskByKey env responses key token repoName
      installationModelId region ctype).2.attemptsMade :=
  attemptsMade_ge_succ (fun i => operationResult (responses i)) 5 200 5 0
    noErrorSentinel (by omega)

/-- C8: with a valid configuration at least one request is sent; in
`delete-key` mode every request sent carries the caller-supplied trimmed
key and cache type `"stickydisk"`, while in docker-cache mode every
request carries the repository name as the key and cache type
`"dockerfile"`. -/
theorem mode_determines_key_and_type (env : Env) (responses : Nat → HttpResponse)
    (hvalid : configCheck env = none) :
    (main env responses).requests ≠ [] ∧
    (deleteKeySelected env = true →
      ∀ r ∈ (main env responses).requests,
        r = buildDeleteRequest env (getInput env.INPUT_DELETE_KEY)
          (env.BLACKSMITH_STICKYDISK_TOKEN.getD "") ((resolvedRepoName env).getD "")
          (env.BLACKSMITH_INSTALLATION_MODEL_ID.getD "")
          (env.BLACKSMITH_REGION.getD "") "stickydisk") ∧
    (deleteKeySelected env = false →
      ∀ r ∈ (main env responses).requests,
        r = buildDeleteRequest env ((resolvedRepoName env).getD "")
          (env.BLACKSMITH_STICKYDISK_TOKEN.getD "") ((resolvedRepoName env).getD "")
          (env.BLACKSMITH_INSTALLATION_MODEL_ID.getD "")
          (env.BLACKSMITH_REGION.getD "") "dockerfile") := by
  rw [main_valid_eq env responses hvalid, runDelete_requests]
  refine ⟨?_, ?_, ?_⟩
  · intro hnil
    have hlen := congrArg List.length hnil
    rw [List.length_replicate] at hlen
    have := delete_attempts_pos env responses
      (if deleteKeySelected env = true then getInput env.INPUT_DELETE_KEY
        else (resolvedRepoName env).getD "")
      (env.BLACKSMITH_STICKYDISK_TOKEN.getD "") ((resolvedRepoName env).getD "")
      (env.BLACKSMITH_INSTALLATION_MODEL_ID.getD "") (env.BLACKSMITH_REGION.getD "")
      (if deleteKeySelected env = true then "stickydisk" else "dockerfile")
    simp at hlen
    omega
  · intro hsel r hr
    rw [List.eq_of_mem_replicate hr]
    simp [deleteStickyDiskByKey, hsel]
  · intro hsel r hr
    rw [List.eq_of_mem_replicate hr]
    simp [deleteStickyDiskByKey, hsel]

/-- C9: setting `GITHUB_REPO_NAME` to the empty string suppresses the
fallback to `GITHUB_REPOSITORY`: with exactly one mode selected and the
token present, `main` fails with the missing-repository error and makes no
network call, whatever `GITHUB_REPOSITORY` holds; the fallback yields
`GITHUB_REPOSITORY` only when `GITHUB_REPO_NAME` is entirely unset. -/
theorem empty_repo_name_suppresses_fallback :
    (∀ (env : Env) (responses : Nat → HttpResponse),
      ¬(deleteKeySelected env = dockerCacheSelected env) →
      truthy env.BLACKSMITH_STICKYDISK_TOKEN = true →
      env.GITHUB_REPO_NAME = some "" →
      main env responses = ⟨1, some .missingRepoName, []⟩) ∧
    (∀ env : Env, env.GITHUB_REPO_NAME = none →
      resolvedRepoName env = env.GITHUB_REPOSITORY) := by
  constructor
  · intro env responses hmode htok hrn
    have hr : truthy (resolvedRepoName env) = false := by
      simp [resolvedRepoName, hrn, Option.or, truthy]
    have hcheck : configCheck env = some .missingRepoName := by
      unfold configCheck
      rw [if_neg (fun hcon => hmode (by rw [hcon.1, hcon.2])),
        if_neg (fun hcon => hmode (by rw [hcon.1, hcon.2])),
        if_neg (by simp [htok]), if_pos hr]
    simp [main, hcheck]
  · intro env hrn
    simp [resolvedRepoName, hrn, Option.or]

/-- C10: the docker-cache operation mode is selected exactly when the raw
`delete-docker-cache` input value (the empty string when unset), after
trimming surrounding whitespace, equals the exact lowercase string
"true". -/
theorem docker_cache_mode_iff_trimmed_true (env : Env) :
    dockerCacheSelected env = true ↔
      jsTrim (env.INPUT_DELETE_DOCKER_CACHE.getD "") = "true" := by
  simp [dockerCacheSelected, getInput]

/-! ### Concrete fixtures, mirroring the scenarios of the test suite -/

/-- A rate-limit error, as produced by a 429 response. -/
def err429s : Err := { message := "429 rate limited", status := some 429 }

/-- A not-found error, as produced by a 404 response. -/
def err404s : Err := { message := "404 not found", status := some 404 }

/-- An operation failing every attempt with the 429 error. -/
def opAll429 : Nat → Except Err Nat := fun _ => .error err429s

/-- An operation failing every attempt with the 404 error. -/
def op404First : Nat → Except Err Nat := fun _ => .error err404s

/-- An operation that never throws. -/
def opOkFirst : Nat → Except Err Nat := fun _ => .ok 7

/-- The valid delete-key environment used by the test suite. -/
def envValidKey : Env :=
  ⟨none, none, some "test-token", some "org/repo", none, some "123",
    some "us-west-2", some "test-key", none⟩

/-- A service that always answers 200 with a well-formed body. -/
def respsOk : Nat → HttpResponse :=
  fun _ => ⟨true, 200, "", ⟨"Sticky disk deleted successfully", "123"⟩⟩

/-! ### Witnesses -/

/-- C1 at a concrete input: a non-retryable 404 on the first attempt
propagates after exactly one attempt with no delay. -/
theorem retry_exactly_on_rate_limit_or_server_error_witness :
    retryWithBackoff op404First 5 200 = ⟨.error err404s, 1, []⟩ := by
  have hnp : ¬retrySpecPred err404s := by
    rintro (hp | hp | ⟨s, hs, hge⟩)
    · exact absurd hp (by decide)
    · exact absurd hp (by decide)
    · simp [err404s] at hs
      omega
  have h := retry_exactly_on_rate_limit_or_server_error.2.1 Nat op404First 5 200 0
    err404s (by omega) (fun i hi => absurd hi (by omega)) rfl hnp
  simpa using h

/-- C2 at a concrete input: with the operation failing retryably, the
first recorded wait (before attempt 2) is 200 ms. -/
theorem backoff_delay_doubles_witness :
    (retryWithBackoff opAll429 5 200).delays.getD 0 0 = 200 := by
  have hlen : 2 - 2 < (retryWithBackoff opAll429 5 200).delays.length := by decide
  have h := backoff_delay_doubles Nat opAll429 5 200 2 (by omega) hlen
  simpa using h.1

/-- C3 at a concrete input: five identical 429 failures exhaust the five
default attempts and the last error surfaces. -/
theorem exhaustion_surfaces_last_attempt_error_witness :
    (retryWithBackoff opAll429 5 200).result = .error err429s ∧
    (retryWithBackoff opAll429 5 200).attemptsMade = 5 := by
  have h := exhaustion_surfaces_last_attempt_error Nat opAll429 5 200
    (fun _ => err429s) (by omega) (fun i _ => rfl)
    (fun i _ => Or.inr (Or.inl rfl))
  exact ⟨h.1, h.2.1⟩

/-- C4 at a concrete input: an operation that never throws returns its
value after exactly one attempt. -/
theorem retry_zero_attempts_well_defined_witness :
    retryWithBackoff opOkFirst 5 200 = ⟨.ok 7, 1, []⟩ :=
  retry_zero_attempts_well_defined.2.2.1 Nat opOkFirst 5 200 7 (by omega) rfl

/-- C5 (amended) at concrete inputs: a non-empty override is used verbatim
even when staging is detected, and an environment tag containing "arm"
resolves the architecture to "arm64". -/
theorem api_url_and_architecture_resolution_witness :
    getBlacksmithAPIUrl (Env.mk (some "https://custom.api.com") (some "staging")
        none none none none none none none) = "https://custom.api.com" ∧
    getArchitecture (Env.mk none (some "production-arm")
        none none none none none none none) = "arm64" := by
  constructor
  · exact (api_url_and_architecture_resolution _).1 "https://custom.api.com" rfl
      (by decide)
  · exact (api_url_and_architecture_resolution _).2.2.1.mpr (by decide)

/-- The delete-key environment with the token unset. -/
def envMissingToken : Env :=
  ⟨none, none, none, some "org/repo", none, some "123",
    some "us-west-2", some "test-key", none⟩

/-- The delete-key environment with `GITHUB_REPO_NAME` set to the empty
string and `GITHUB_REPOSITORY` set and non-empty. -/
def envEmptyRepoName : Env :=
  ⟨none, none, some "test-token", some "", some "org/repo", some "123",
    some "us-west-2", some "test-key", none⟩

/-- C7 at a concrete input: a valid mode selection with the token unset
exits 1 without any network call. -/
theorem config_failure_exits_nonzero_no_network_witness :
    (main envMissingToken respsOk).exitCode = 1 ∧
    (main envMissingToken respsOk).requests = [] :=
  config_failure_exits_nonzero_no_network _ respsOk (Or.inr (Or.inl (by decide)))

/-- C8 at a concrete input: the valid delete-key environment issues at
least one request. -/
theorem mode_determines_key_and_type_witness :
    (main envValidKey respsOk).requests ≠ [] :=
  (mode_determines_key_and_type envValidKey respsOk (by decide)).1

/-- C9 at a concrete input: `GITHUB_REPO_NAME` set to the empty string
fails with the missing-repository error although `GITHUB_REPOSITORY` is
set and non-empty. -/
theorem empty_repo_name_suppresses_fallback_witness :
    main envEmptyRepoName respsOk = ⟨1, some .missingRepoName, []⟩ :=
  empty_repo_name_suppresses_fallback.1 _ respsOk (by decide) (by decide) rfl

/-- C10 at a concrete input: an input value of "  true " (whitespace
around the exact lowercase word) selects the docker-cache mode. -/
theorem docker_cache_mode_iff_trimmed_true_witness :
    dockerCacheSelected
      (Env.mk none none none none none none none none (some "  true ")) = true :=
  (docker_cache_mode_iff_trimmed_true _).mpr (by decide)

/-- C6 at a concrete input: the request of the valid delete-key scenario,
exactly as the test suite expects it on the wire. -/
theorem delete_request_wire_format_example :
    (deleteStickyDiskByKey envValidKey respsOk "test-key" "test-token" "org/repo"
        "123" "us-west-2" "stickydisk").1 =
      { url := "https://api.blacksmith.sh/stickydisks"
      , method := "DELETE"
      , headers := [("Authorization", "Bearer test-token"),
          ("Content-Type", "application/json")]
      , body := [("repo_name", "org/repo"), ("stickydisk_key", "test-key"),
          ("installation_model_id", "123"), ("region", "us-west-2"),
          ("arch", "amd64"), ("type", "stickydisk")] } := by
  decide

end StickyDisk
